import Mathlib

/-!
Shallow embedding of the completion-tracking decorator from
src/source/done.rs of the rodio repository, together with the part of the
Source capability contract that the decorator delegates to.

Modelling choices:
* The Source trait is embedded as a record of pure state-passing operations
  over an abstract state type sigma; items have abstract type alpha and seek
  errors abstract type epsilon.  Durations are modelled as natural numbers.
* Done<I> becomes a structure holding the inner source state, the current
  value of the shared counter cell (the contents of the Arc<AtomicUsize>),
  the signal_sent flag, and the callback slot.  Callbacks are opaque values
  of an abstract type kappa: invoking a callback is recorded as an event,
  so a run of the decorator produces the list of per-call invocation events.
* AtomicUsize.fetch_sub(1, Relaxed) on the value v held by the cell is
  unsigned wraparound subtraction modulo 2 ^ 64 (a 64-bit target).
* try_seek returns an optional error (none = Ok(())) together with the
  possibly advanced inner state.
-/

namespace Rodio

/-- Width of the shared counter type: usize on a 64-bit target. -/
def usizeSize : Nat := 2 ^ 64

/-- Embedding of fetch_sub(1, Ordering.Relaxed) acting on the value held by
the AtomicUsize cell: decrement by one with unsigned wraparound. -/
def fetch_sub1 (v : Nat) : Nat := (v + (usizeSize - 1)) % usizeSize

/-- The Source capability contract (trait Source plus Iterator::next and
Iterator::size_hint), embedded as pure state-passing operations on an
abstract source state sigma producing items of type alpha, with seek
errors of type epsilon and durations as naturals. -/
structure SourceOps (σ α ε : Type) where
  next : σ → Option α × σ
  size_hint : σ → Nat × Option Nat
  current_frame_len : σ → Option Nat
  channels : σ → Nat
  sample_rate : σ → Nat
  total_duration : σ → Option Nat
  try_seek : σ → Nat → Option ε × σ

/-- State of struct Done<I> from done.rs: the inner source state (field
input), the value held by the shared counter (field signal, the contents of
the Arc<AtomicUsize>), the signal_sent flag, and the contents of the
callback slot (Arc<Mutex<Option<Box<dyn Fn()>>>>), where a stored callback
is identified by an opaque value of type kappa. -/
structure Done (σ κ : Type) where
  input : σ
  signal : Nat
  signal_sent : Bool
  on_done : Option κ

variable {σ α ε κ : Type}

/-- Done::new: store the inner source and the shared counter, initialise
signal_sent to false and the callback slot to empty.  No counter update
happens here. -/
def Done.new (input : σ) (signal : Nat) : Done σ κ :=
  ⟨input, signal, false, none⟩

/-- Done::inner: shared borrow of the inner source (a pure read). -/
def Done.inner (d : Done σ κ) : σ := d.input

/-- Done::inner_mut hands out a mutable borrow of the input field only; a
caller writing s through that borrow leaves every other field untouched,
which is what this update function expresses. -/
def Done.inner_mut (d : Done σ κ) (s : σ) : Done σ κ := { d with input := s }

/-- Done::into_inner: consume the decorator and return the inner source. -/
def Done.into_inner (d : Done σ κ) : σ := d.input

/-- Done::set_on_done: overwrite the mutex-guarded slot with the new
callback (Some(Box::new(callback))). -/
def Done.set_on_done (d : Done σ κ) (c : κ) : Done σ κ := { d with on_done := some c }

/-- Iterator::next for Done (done.rs lines 70-81): pull once from the inner
source; if signal_sent is false and the pull returned None, decrement the
shared counter with wraparound, set signal_sent to true, and invoke the
callback currently in the slot if one is present; finally return the pulled
result unchanged.  The third component of the result records the callback
invoked during this call, none if no invocation happened.  ops.next is a
pure function, so every occurrence of ops.next d.input below denotes the
single pull the Rust code performs. -/
def Done.next (ops : SourceOps σ α ε) (d : Done σ κ) : Option α × Done σ κ × Option κ :=
  if !d.signal_sent && ((ops.next d.input).1).isNone then
    ((ops.next d.input).1, ⟨(ops.next d.input).2, fetch_sub1 d.signal, true, d.on_done⟩,
      d.on_done)
  else
    ((ops.next d.input).1, ⟨(ops.next d.input).2, d.signal, d.signal_sent, d.on_done⟩, none)

/-- Iterator::size_hint for Done: delegate to the inner source. -/
def Done.size_hint (ops : SourceOps σ α ε) (d : Done σ κ) : Nat × Option Nat :=
  ops.size_hint d.input

/-- Source::current_frame_len for Done: delegate to the inner source. -/
def Done.current_frame_len (ops : SourceOps σ α ε) (d : Done σ κ) : Option Nat :=
  ops.current_frame_len d.input

/-- Source::channels for Done: delegate to the inner source. -/
def Done.channels (ops : SourceOps σ α ε) (d : Done σ κ) : Nat :=
  ops.channels d.input

/-- Source::sample_rate for Done: delegate to the inner source. -/
def Done.sample_rate (ops : SourceOps σ α ε) (d : Done σ κ) : Nat :=
  ops.sample_rate d.input

/-- Source::total_duration for Done: delegate to the inner source. -/
def Done.total_duration (ops : SourceOps σ α ε) (d : Done σ κ) : Option Nat :=
  ops.total_duration d.input

/-- Source::try_seek for Done: delegate to the inner source, forwarding its
result and its state change; no other field of the decorator is touched. -/
def Done.try_seek (ops : SourceOps σ α ε) (d : Done σ κ) (pos : Nat) : Option ε × Done σ κ :=
  ((ops.try_seek d.input pos).1,
    ⟨(ops.try_seek d.input pos).2, d.signal, d.signal_sent, d.on_done⟩)

/-- Iterate Done.next n times, collecting the produced outputs, the per-call
callback-invocation events (entry i is some c when callback c was invoked
during call i), and the final decorator state. -/
def runNexts (ops : SourceOps σ α ε) : Nat → Done σ κ → List (Option α) × List (Option κ) × Done σ κ
  | 0, d => ([], [], d)
  | n + 1, d =>
    ((Done.next ops d).1 :: (runNexts ops n (Done.next ops d).2.1).1,
      (Done.next ops d).2.2 :: (runNexts ops n (Done.next ops d).2.1).2.1,
      (runNexts ops n (Done.next ops d).2.1).2.2)

/-- Iterate the undecorated inner source n times, collecting its outputs and
final state. -/
def sourceRun (ops : SourceOps σ α ε) : Nat → σ → List (Option α) × σ
  | 0, s => ([], s)
  | n + 1, s =>
    ((ops.next s).1 :: (sourceRun ops n (ops.next s).2).1,
      (sourceRun ops n (ops.next s).2).2)

/-- A concrete finite source over a list, used to instantiate the contract:
next pops the head and, once the list is empty, keeps returning none on
every further call (repeatable exhaustion); metadata are constants and
try_seek always succeeds without moving. -/
def listOps (α : Type) : SourceOps (List α) α Unit where
  next := fun s => match s with | [] => (none, []) | x :: xs => (some x, xs)
  size_hint := fun s => (s.length, some s.length)
  current_frame_len := fun s => some s.length
  channels := fun _ => 2
  sample_rate := fun _ => 44100
  total_duration := fun _ => none
  try_seek := fun s _ => (none, s)

lemma done_next_fst (ops : SourceOps σ α ε) (d : Done σ κ) :
    (Done.next ops d).1 = (ops.next d.input).1 := by
  unfold Done.next; split <;> rfl

lemma done_next_input (ops : SourceOps σ α ε) (d : Done σ κ) :
    ((Done.next ops d).2.1).input = (ops.next d.input).2 := by
  unfold Done.next; split <;> rfl

lemma done_next_sent (ops : SourceOps σ α ε) (d : Done σ κ) (h : d.signal_sent = true) :
    Done.next ops d =
      ((ops.next d.input).1, ⟨(ops.next d.input).2, d.signal, true, d.on_done⟩, none) := by
  unfold Done.next
  rw [h]
  simp

/-- Once signal_sent holds, any number of further calls performs no
bookkeeping at all: no invocation events, the counter and the flag and the
slot are untouched, and the inner source just runs undecorated. -/
lemma runNexts_sent (ops : SourceOps σ α ε) (n : Nat) :
    ∀ d : Done σ κ, d.signal_sent = true →
      runNexts ops n d =
        ((sourceRun ops n d.input).1, List.replicate n none,
          ⟨(sourceRun ops n d.input).2, d.signal, true, d.on_done⟩) := by
  induction n with
  | zero =>
    intro d h
    obtain ⟨i, sg, ss, cb⟩ := d
    cases h
    rfl
  | succ n ih =>
    intro d h
    have hstep := done_next_sent ops d h
    simp only [runNexts, sourceRun, hstep]
    rw [ih _ rfl]
    simp [List.replicate]

lemma sourceRun_nil (α : Type) (n : Nat) :
    sourceRun (listOps α) n ([] : List α) = (List.replicate n none, []) := by
  induction n with
  | zero => rfl
  | succ n ih =>
    simp only [sourceRun, show (listOps α).next ([] : List α) = (none, []) from rfl, ih]
    simp [List.replicate_succ]

/-- Full characterisation of a run of the decorator over the list source
starting from a not-yet-signalled state with an arbitrary slot content:
while calls stay within the items the counter and flag are untouched and no
event fires; from the first call that observes exhaustion on, the counter
has been wrap-decremented exactly once, signal_sent holds, and the single
(possible) invocation event sits exactly at that first exhausted call. -/
lemma listRun (items : List α) (c0 : Nat) (cb : Option κ) (n : Nat) :
    runNexts (listOps α) n (⟨items, c0, false, cb⟩ : Done (List α) κ) =
      if n ≤ items.length then
        ((items.take n).map some, List.replicate n none, ⟨items.drop n, c0, false, cb⟩)
      else
        (items.map some ++ List.replicate (n - items.length) none,
          List.replicate items.length none ++ cb :: List.replicate (n - items.length - 1) none,
          ⟨[], fetch_sub1 c0, true, cb⟩) := by
  induction n generalizing items with
  | zero => simp [runNexts]
  | succ n ih =>
    cases items with
    | nil =>
      have hstep : Done.next (listOps α) (⟨[], c0, false, cb⟩ : Done (List α) κ) =
          (none, ⟨[], fetch_sub1 c0, true, cb⟩, cb) := by
        unfold Done.next
        simp [listOps]
      simp only [runNexts, hstep]
      rw [runNexts_sent _ _ _ rfl]
      simp [sourceRun_nil, List.replicate]
    | cons x xs =>
      have hstep : Done.next (listOps α) (⟨x :: xs, c0, false, cb⟩ : Done (List α) κ) =
          (some x, ⟨xs, c0, false, cb⟩, none) := by
        unfold Done.next
        simp [listOps]
      simp only [runNexts, hstep]
      rw [ih xs]
      by_cases h : n ≤ xs.length
      · rw [if_pos h, if_pos (by simpa using Nat.succ_le_succ h)]
        simp [List.replicate_succ]
      · rw [if_neg h, if_neg (by simp; omega)]
        simp [Nat.succ_sub_succ, List.replicate_succ, List.cons_append]

lemma runNexts_outputs (ops : SourceOps σ α ε) (n : Nat) :
    ∀ d : Done σ κ,
      (runNexts ops n d).1 = (sourceRun ops n d.input).1 ∧
      ((runNexts ops n d).2.2).input = (sourceRun ops n d.input).2 := by
  induction n with
  | zero => intro d; exact ⟨rfl, rfl⟩
  | succ n ih =>
    intro d
    have h1 := done_next_fst ops d
    have h2 := done_next_input ops d
    have h3 := ih ((Done.next ops d).2.1)
    rw [h2] at h3
    simp only [runNexts, sourceRun]
    exact ⟨by rw [h1, h3.1], by rw [h3.2]⟩

/-- C1: for an inner source yielding the items of a list and then exhaustion,
a run of n produce-next-item calls leaves the shared counter and signal_sent
untouched while n stays within the items; as soon as n covers the first call
observing the end-marker, the counter has been wrap-decremented by exactly 1,
signal_sent is true, and no later call changes the counter again, however
many further calls are made. -/
theorem spec_C1 (items : List α) (c0 n : Nat) :
    runNexts (listOps α) n (Done.new items c0 : Done (List α) κ) =
      if n ≤ items.length then
        ((items.take n).map some, List.replicate n none, ⟨items.drop n, c0, false, none⟩)
      else
        (items.map some ++ List.replicate (n - items.length) none,
          List.replicate items.length none ++ none :: List.replicate (n - items.length - 1) none,
          ⟨[], fetch_sub1 c0, true, none⟩) :=
  listRun items c0 none n

/-- C2: if the callback cb is installed after j calls, before the inner
source is exhausted (j is within the items) and never replaced, then over
any further n calls the invocation events contain cb exactly once, placed
exactly at the call that first returns the end-marker (relative position
items.length - j), and at no later call. -/
theorem spec_C2 (items : List α) (c0 : Nat) (cb : κ) (j n : Nat) (hj : j ≤ items.length) :
    (runNexts (listOps α) n
        (Done.set_on_done ((runNexts (listOps α) j (Done.new items c0 : Done (List α) κ)).2.2) cb)).2.1
      = if n ≤ items.length - j then List.replicate n (none : Option κ)
        else List.replicate (items.length - j) none ++
          some cb :: List.replicate (n - (items.length - j) - 1) none := by
  have h0 : runNexts (listOps α) j (Done.new items c0 : Done (List α) κ) =
      ((items.take j).map some, List.replicate j none, ⟨items.drop j, c0, false, none⟩) := by
    rw [show (Done.new items c0 : Done (List α) κ) = ⟨items, c0, false, none⟩ from rfl,
      listRun, if_pos hj]
  rw [h0]
  have h1 : Done.set_on_done (⟨items.drop j, c0, false, none⟩ : Done (List α) κ) cb =
      ⟨items.drop j, c0, false, some cb⟩ := rfl
  rw [h1, listRun]
  simp only [List.length_drop]
  split <;> rfl

/-- C3: once signal_sent is true, a callback installed afterwards via
set_on_done is never invoked by any number of subsequent produce-next-item
calls, and the shared counter is never touched again. -/
theorem spec_C3 (ops : SourceOps σ α ε) (d : Done σ κ) (c : κ) (n : Nat)
    (h : d.signal_sent = true) :
    (runNexts ops n (Done.set_on_done d c)).2.1 = List.replicate n none ∧
    ((runNexts ops n (Done.set_on_done d c)).2.2).signal = d.signal := by
  have hs : (Done.set_on_done d c).signal_sent = true := h
  rw [runNexts_sent ops n _ hs]
  exact ⟨rfl, rfl⟩

/-- C4: each produce-next-item call on the decorator returns exactly the
value pulled from the inner source on that call and advances the inner
source exactly as the undecorated source would, whether or not the one-shot
bookkeeping fires; hence over any n calls the decorator yields the identical
output sequence as the undecorated inner source. -/
theorem spec_C4 (ops : SourceOps σ α ε) (d : Done σ κ) (n : Nat) :
    (Done.next ops d).1 = (ops.next d.input).1 ∧
    ((Done.next ops d).2.1).input = (ops.next d.input).2 ∧
    (runNexts ops n d).1 = (sourceRun ops n d.input).1 ∧
    ((runNexts ops n d).2.2).input = (sourceRun ops n d.input).2 :=
  ⟨done_next_fst ops d, done_next_input ops d,
    (runNexts_outputs ops n d).1, (runNexts_outputs ops n d).2⟩

/-- C5: channels, sample_rate, current_frame_len and total_duration on the
decorator equal the corresponding call on the inner source, for every
decorator state, hence at every point in consumption. -/
theorem spec_C5 (ops : SourceOps σ α ε) (d : Done σ κ) :
    Done.channels ops d = ops.channels d.input ∧
    Done.sample_rate ops d = ops.sample_rate d.input ∧
    Done.current_frame_len ops d = ops.current_frame_len d.input ∧
    Done.total_duration ops d = ops.total_duration d.input :=
  ⟨rfl, rfl, rfl, rfl⟩

/-- C6: try_seek on the decorator returns exactly the inner source's result
(success, or the identical error) at every state and offset, advances the
inner source exactly as a direct call would, and leaves signal_sent, the
shared counter and the callback slot unchanged whether the seek succeeds or
fails. -/
theorem spec_C6 (ops : SourceOps σ α ε) (d : Done σ κ) (pos : Nat) :
    (Done.try_seek ops d pos).1 = (ops.try_seek d.input pos).1 ∧
    ((Done.try_seek ops d pos).2).signal_sent = d.signal_sent ∧
    ((Done.try_seek ops d pos).2).signal = d.signal ∧
    ((Done.try_seek ops d pos).2).on_done = d.on_done ∧
    ((Done.try_seek ops d pos).2).input = (ops.try_seek d.input pos).2 :=
  ⟨rfl, rfl, rfl, rfl, rfl⟩

/-- C7: new always yields signal_sent = false, an empty callback slot, and
the counter value exactly as passed in, the zero counter included (no
decrement at construction); the accessors inner and into_inner are pure
reads of the inner source, and a write through the inner_mut borrow changes
only the input field, leaving signal_sent, the counter and the slot
untouched. -/
theorem spec_C7 (inp : σ) (c : Nat) (d : Done σ κ) (s : σ) :
    (Done.new inp c : Done σ κ).signal_sent = false ∧
    (Done.new inp c : Done σ κ).on_done = none ∧
    (Done.new inp c : Done σ κ).signal = c ∧
    (Done.new inp c : Done σ κ).input = inp ∧
    Done.inner d = d.input ∧
    Done.into_inner d = d.input ∧
    (Done.inner_mut d s).input = s ∧
    (Done.inner_mut d s).signal_sent = d.signal_sent ∧
    (Done.inner_mut d s).signal = d.signal ∧
    (Done.inner_mut d s).on_done = d.on_done :=
  ⟨rfl, rfl, rfl, rfl, rfl, rfl, rfl, rfl, rfl, rfl⟩

/-- C8: if the shared counter holds 0 when the inner source is first
observed exhausted, the decrement wraps around to the maximum value of the
counter type (2 ^ 64 - 1) instead of erroring or saturating. -/
theorem spec_C8 (ops : SourceOps σ α ε) (d : Done σ κ) (h0 : d.signal = 0)
    (hs : d.signal_sent = false) (he : (ops.next d.input).1 = none) :
    ((Done.next ops d).2.1).signal = usizeSize - 1 := by
  unfold Done.next
  rw [hs, he]
  norm_num [fetch_sub1, h0, usizeSize]

/-- C10: size_hint on the decorator equals size_hint on the inner source in
the same state. -/
theorem spec_C10 (ops : SourceOps σ α ε) (d : Done σ κ) :
    Done.size_hint ops d = ops.size_hint d.input :=
  rfl

/-- Witness for C2 at items = [1, 2], counter 5, callback 7, installed after
1 call, 3 further calls. -/
theorem spec_C2_witness :
    1 ≤ ([1, 2] : List Nat).length ∧
    (runNexts (listOps Nat) 3
        (Done.set_on_done ((runNexts (listOps Nat) 1 (Done.new [1, 2] 5 : Done (List Nat) Nat)).2.2) 7)).2.1
      = if 3 ≤ ([1, 2] : List Nat).length - 1 then List.replicate 3 (none : Option Nat)
        else List.replicate (([1, 2] : List Nat).length - 1) none ++
          some 7 :: List.replicate (3 - (([1, 2] : List Nat).length - 1) - 1) none :=
  ⟨by decide, spec_C2 [1, 2] 5 7 1 3 (by decide)⟩

/-- Witness for C3 at an already-signalled empty decorator, callback 9
installed afterwards, 2 further calls. -/
theorem spec_C3_witness :
    (⟨[], 5, true, none⟩ : Done (List Nat) Nat).signal_sent = true ∧
    ((runNexts (listOps Nat) 2 (Done.set_on_done (⟨[], 5, true, none⟩ : Done (List Nat) Nat) 9)).2.1
        = List.replicate 2 none ∧
      ((runNexts (listOps Nat) 2 (Done.set_on_done (⟨[], 5, true, none⟩ : Done (List Nat) Nat) 9)).2.2).signal
        = (⟨[], 5, true, none⟩ : Done (List Nat) Nat).signal) :=
  ⟨rfl, spec_C3 (listOps Nat) ⟨[], 5, true, none⟩ 9 2 rfl⟩

/-- Witness for C8 at an empty source with the counter at 0. -/
theorem spec_C8_witness :
    (⟨[], 0, false, none⟩ : Done (List Nat) Nat).signal = 0 ∧
    (⟨[], 0, false, none⟩ : Done (List Nat) Nat).signal_sent = false ∧
    ((listOps Nat).next ([] : List Nat)).1 = none ∧
    ((Done.next (listOps Nat) (⟨[], 0, false, none⟩ : Done (List Nat) Nat)).2.1).signal
      = usizeSize - 1 :=
  ⟨rfl, rfl, rfl, spec_C8 (listOps Nat) ⟨[], 0, false, none⟩ rfl rfl rfl⟩

end Rodio
